import Mathlib

/-!
Verification of the artifact-upload orchestrator
(`filegroups/tradefed/content_uploader.py`).

The development shallowly embeds the script's data model and the pure
control logic of its operations.  External effects (the `glob` file
resolver, the `casuploader` subprocess, environment lookup, temporary
file creation) are passed in as explicit function parameters or oracle
values, exactly at the points where the script calls out to them; the
decision logic that consumes their results is translated line by line
from the source.
-/

namespace ContentUploader

/-- Configuration of an artifact to be uploaded to CAS
(`ArtifactConfig` dataclass in the source).  Field names and defaults
follow the source. -/
structure ArtifactConfig where
  source_path : String
  unzip : Bool
  chunk : Bool := false
  chunk_fallback : Bool := false
  exclude_filters : List String := []
  deriving DecidableEq, Repr

/-- Basic information of CAS server and client (`CasInfo` dataclass).
The client version tuple is modelled as a pair of naturals. -/
structure CasInfo where
  cas_instance : String
  cas_service : String
  client_path : String
  client_version : Nat × Nat
  deriving DecidableEq, Repr

/-- Result of uploading a single artifact (`UploadResult` dataclass).
`content_details` is `none` when the Python field is `None`; the opaque
per-file records are modelled as strings. -/
structure UploadResult where
  digest : String
  content_details : Option (List String) := none
  deriving DecidableEq, Repr

/-- Constant `AVG_CHUNK_SIZE_IN_KB = 128`. -/
def AVG_CHUNK_SIZE_IN_KB : Nat := 128

/-- Constant `CHUNKED_ARTIFACT_NAME_PREFIX = "_chunked_"` in the source. -/
def CHUNKED_ARTIFACT_NAME_TAG : String := "_chunked_"

/-- Constant `CHUNKED_DIR_ARTIFACT_NAME_PREFIX = "_chunked_dir_"` in the source. -/
def CHUNKED_DIR_ARTIFACT_NAME_TAG : String := "_chunked_dir_"

/-- Function `_artifact_name(basename, chunk, unzip)` from the source:
the display name is the basename, with a marker prepended for chunked
(file or directory) variants. -/
def artifactName (basename : String) (chunk : Bool) (unzip : Bool) : String :=
  if ¬chunk then basename
  else if unzip then CHUNKED_DIR_ARTIFACT_NAME_TAG ++ basename
  else CHUNKED_ARTIFACT_NAME_TAG ++ basename

/-- Character-level `os.path.basename`: everything after the last `/`. -/
def basenameChars (cs : List Char) : List Char :=
  cs.foldl (fun acc c => if c = '/' then [] else acc ++ [c]) []

/-- Model of `os.path.basename` on a POSIX path string (no trailing slash). -/
def basenameOf (s : String) : String :=
  ⟨basenameChars s.data⟩

/-- The fallback rule synthesized for one rule inside
`_add_fallback_artifacts`: `copy.copy(artifact)` then
`unzip = False` for unzip-based rules and `chunk = False` otherwise. -/
def fallbackOf (a : ArtifactConfig) : ArtifactConfig :=
  if a.unzip then { a with unzip := false } else { a with chunk := false }

/-- The guard `artifact.chunk and artifact.chunk_fallback` of
`_add_fallback_artifacts`. -/
def needsFallback (a : ArtifactConfig) : Bool :=
  a.chunk && a.chunk_fallback

/-- Termination measure for the expansion loop: a rule that triggers a
fallback whose copy again triggers one weighs 3, a rule triggering a
single fallback weighs 2, any other rule weighs 1. -/
def fallbackWeight (a : ArtifactConfig) : Nat :=
  if needsFallback a then (if a.unzip then 3 else 2) else 1

/-- Total weight of a list of rules. -/
def weightSum (l : List ArtifactConfig) : Nat :=
  (l.map fallbackWeight).sum

theorem fallbackWeight_pos (a : ArtifactConfig) : 0 < fallbackWeight a := by
  unfold fallbackWeight; split <;> [skip; exact Nat.zero_lt_one]
  split <;> omega

theorem weightSum_append (l l' : List ArtifactConfig) :
    weightSum (l ++ l') = weightSum l + weightSum l' := by
  simp [weightSum]

theorem weightSum_cons (a : ArtifactConfig) (l : List ArtifactConfig) :
    weightSum (a :: l) = fallbackWeight a + weightSum l := by
  simp [weightSum]

theorem fallbackWeight_fallbackOf_lt (a : ArtifactConfig)
    (h : needsFallback a = true) :
    fallbackWeight (fallbackOf a) < fallbackWeight a := by
  rcases a with ⟨sp, u, c, cf, ex⟩
  cases u <;> cases c <;> cases cf <;>
    simp_all [needsFallback, fallbackOf, fallbackWeight]

/-- The body of `_add_fallback_artifacts`: Python's
`for artifact in artifacts: ... artifacts.append(fallback_artifact)`
iterates by index over a list that grows while it is being traversed,
so appended fallbacks are themselves visited.  `L` is the current list
and `i` the iterator position. -/
def addFallbackLoop (L : List ArtifactConfig) (i : Nat) : List ArtifactConfig :=
  if h : i < L.length then
    let a := L[i]
    if needsFallback a then addFallbackLoop (L ++ [fallbackOf a]) (i + 1)
    else addFallbackLoop L (i + 1)
  else L
termination_by weightSum (L.drop i)
decreasing_by
  · have hdrop : L.drop i = L[i] :: L.drop (i + 1) :=
      List.drop_eq_getElem_cons h
    have happ : (L ++ [fallbackOf L[i]]).drop (i + 1) =
        L.drop (i + 1) ++ [fallbackOf L[i]] :=
      List.drop_append_of_le_length (by omega)
    rw [happ, weightSum_append, hdrop, weightSum_cons]
    have := fallbackWeight_fallbackOf_lt L[i] (by assumption)
    rw [weightSum_cons]
    have h0 : weightSum ([] : List ArtifactConfig) = 0 := rfl
    omega
  · have hdrop : L.drop i = L[i] :: L.drop (i + 1) :=
      List.drop_eq_getElem_cons h
    rw [hdrop, weightSum_cons]
    have := fallbackWeight_pos L[i]
    omega

/-- Function `_add_fallback_artifacts(artifacts)`: the final value of the
(mutated) rule list. -/
def addFallbackArtifacts (xs : List ArtifactConfig) : List ArtifactConfig :=
  addFallbackLoop xs 0

/-- First generation of synthesized fallbacks: one per qualifying input
rule, in input order. -/
def gen1 (xs : List ArtifactConfig) : List ArtifactConfig :=
  (xs.filter needsFallback).map fallbackOf

/-- Second generation: fallbacks synthesized for the appended rules that
themselves qualify (this happens for unzip-based originals, whose first
fallback is still chunked with `chunk_fallback` set). -/
def gen2 (xs : List ArtifactConfig) : List ArtifactConfig :=
  gen1 (gen1 xs)

theorem needsFallback_fallbackOf_fallbackOf (a : ArtifactConfig) :
    needsFallback (fallbackOf (fallbackOf a)) = false := by
  rcases a with ⟨sp, u, c, cf, ex⟩
  cases u <;> simp [fallbackOf, needsFallback]

theorem needsFallback_fallbackOf_pos (a : ArtifactConfig)
    (h : needsFallback a = true) (hu : a.unzip = true) :
    needsFallback (fallbackOf a) = true := by
  rcases a with ⟨sp, u, c, cf, ex⟩
  simp_all [fallbackOf, needsFallback]

theorem needsFallback_fallbackOf_neg (a : ArtifactConfig)
    (hu : a.unzip = false) :
    needsFallback (fallbackOf a) = false := by
  rcases a with ⟨sp, u, c, cf, ex⟩
  simp_all [fallbackOf, needsFallback]

theorem gen1_append (l l' : List ArtifactConfig) :
    gen1 (l ++ l') = gen1 l ++ gen1 l' := by
  simp [gen1]

theorem gen1_cons_pos (a : ArtifactConfig) (l : List ArtifactConfig)
    (h : needsFallback a = true) :
    gen1 (a :: l) = fallbackOf a :: gen1 l := by
  simp [gen1, List.filter_cons, h]

theorem gen1_cons_neg (a : ArtifactConfig) (l : List ArtifactConfig)
    (h : needsFallback a = false) :
    gen1 (a :: l) = gen1 l := by
  simp [gen1, List.filter_cons, h]

theorem gen1_nil : gen1 [] = [] := rfl

/-- The expansion loop, started at position `i`, appends exactly the
first- and second-generation fallbacks of the suffix not yet visited. -/
theorem addFallbackLoop_closed (n : Nat) :
    ∀ (L : List ArtifactConfig) (i : Nat), weightSum (L.drop i) ≤ n →
      addFallbackLoop L i = L ++ gen1 (L.drop i) ++ gen2 (L.drop i) := by
  induction n with
  | zero =>
    intro L i hw
    have hnil : L.drop i = [] := by
      cases hd : L.drop i with
      | nil => rfl
      | cons a t =>
        rw [hd, weightSum_cons] at hw
        have := fallbackWeight_pos a
        omega
    have hlen : L.length ≤ i := by
      by_contra hcon
      push_neg at hcon
      have := List.drop_eq_getElem_cons hcon
      rw [hnil] at this
      exact List.noConfusion this
    rw [addFallbackLoop, dif_neg (by omega)]
    simp [hnil, gen1, gen2]
  | succ n ih =>
    intro L i hw
    by_cases h : i < L.length
    · have hdrop : L.drop i = L[i] :: L.drop (i + 1) :=
        List.drop_eq_getElem_cons h
      rw [addFallbackLoop, dif_pos h]
      by_cases hnf : needsFallback L[i] = true
      · rw [if_pos hnf]
        have happ : (L ++ [fallbackOf L[i]]).drop (i + 1) =
            L.drop (i + 1) ++ [fallbackOf L[i]] :=
          List.drop_append_of_le_length (by omega)
        have hw' : weightSum ((L ++ [fallbackOf L[i]]).drop (i + 1)) ≤ n := by
          rw [happ, weightSum_append]
          rw [hdrop, weightSum_cons] at hw
          have hlt := fallbackWeight_fallbackOf_lt L[i] hnf
          have h0 : weightSum [fallbackOf L[i]] =
              fallbackWeight (fallbackOf L[i]) := by
            rw [weightSum_cons]; simp [weightSum]
          omega
        rw [ih _ _ hw', happ]
        by_cases hu : L[i].unzip = true
        · have h1 : needsFallback (fallbackOf L[i]) = true :=
            needsFallback_fallbackOf_pos _ hnf hu
          have h2 : needsFallback (fallbackOf (fallbackOf L[i])) = false :=
            needsFallback_fallbackOf_fallbackOf _
          simp only [gen2, hdrop, gen1_append, gen1_cons_pos _ _ hnf,
            gen1_cons_pos _ _ h1, gen1_cons_neg _ _ h2, gen1_nil,
            List.append_assoc, List.append_nil,
            List.nil_append, List.cons_append, List.singleton_append]
        · have hu' : L[i].unzip = false := by
            cases hx : L[i].unzip
            · rfl
            · exact absurd hx hu
          have h1 : needsFallback (fallbackOf L[i]) = false :=
            needsFallback_fallbackOf_neg _ hu'
          simp only [gen2, hdrop, gen1_append, gen1_cons_pos _ _ hnf,
            gen1_cons_neg _ _ h1, gen1_nil,
            List.append_assoc, List.append_nil,
            List.nil_append, List.cons_append, List.singleton_append]
      · have hnf' : needsFallback L[i] = false := by
          cases hx : needsFallback L[i]
          · rfl
          · exact absurd hx hnf
        rw [if_neg hnf]
        have hw' : weightSum (L.drop (i + 1)) ≤ n := by
          rw [hdrop, weightSum_cons] at hw
          have := fallbackWeight_pos L[i]
          omega
        rw [ih _ _ hw']
        simp only [gen2, hdrop, gen1_cons_neg _ _ hnf']
    · have hnil : L.drop i = [] := List.drop_eq_nil_of_le (by omega)
      rw [addFallbackLoop, dif_neg h]
      simp [hnil, gen1, gen2]

/-- Closed form of `_add_fallback_artifacts`: the final rule list is the
input followed by the first-generation fallbacks and then the
second-generation fallbacks. -/
theorem addFallbackArtifacts_closed (xs : List ArtifactConfig) :
    addFallbackArtifacts xs = xs ++ gen1 xs ++ gen2 xs := by
  have := addFallbackLoop_closed (weightSum (xs.drop 0)) xs 0 (le_refl _)
  simpa [addFallbackArtifacts] using this

/-! ### The `_upload` invocation (`_upload`, `_path_for_artifact`,
`_get_client_version`, version gating) -/

/-- Python tuple comparison `client_version >= (1, 0)`: lexicographic
order on pairs. -/
def versionAtLeast (v w : Nat × Nat) : Bool :=
  (w.1 < v.1) || (v.1 = w.1 && w.2 ≤ v.2)

/-- Outcome of the one `subprocess.run` call inside `_upload`, as
observed by the script.  `success` carries the contents subsequently
read back from the `-dump-digest` file and the `-dump-file-details`
file.  (`subprocess.run(check=True, timeout=...)` raises
`CalledProcessError` on non-zero exit and `TimeoutExpired` on timeout;
those are the two caught, reachable failure exceptions.) -/
inductive ProcOutcome where
  | success (digestDump : String) (detailsDump : String)
  | nonZeroExit
  | timeoutExpired
  deriving DecidableEq, Repr

/-- Function `_path_for_artifact(artifact, working_dir)`.  The effectful
`tempfile.mkdtemp(dir=working_dir)` is modelled by the fresh name
`tmpName`; the function returns the client path arguments together with
the list of file copies performed (`shutil.copy` source/target). -/
def pathForArtifact (a : ArtifactConfig) (workingDir tmpName : String) :
    List String × List (String × String) :=
  if a.unzip then (["-zip-path", a.source_path], [])
  else if a.chunk then (["-file-path", a.source_path], [])
  else
    let tmpDir := workingDir ++ "/" ++ tmpName
    (["-dir-path", tmpDir],
      [(a.source_path, tmpDir ++ "/" ++ basenameOf a.source_path)])

/-- The command list built by `_upload` before the optional
`-dump-file-details` part: client binary, CAS flags, digest dump,
`-use-adc`, the staging arguments, chunking flags, and exclude
filters. -/
def uploadCmdCore (ci : CasInfo) (a : ArtifactConfig)
    (pathArgs : List String) (digestFile : String) : List String :=
  [ci.client_path, "-cas-instance", ci.cas_instance, "-cas-addr",
    ci.cas_service, "-dump-digest", digestFile, "-use-adc"]
  ++ pathArgs
  ++ (if a.chunk then ["-chunk", "-avg-chunk-size",
        toString AVG_CHUNK_SIZE_IN_KB] else [])
  ++ a.exclude_filters.flatMap (fun f => ["-exclude-filters", f])

/-- The full command list built by `_upload`: `-dump-file-details` is
appended only when the client version is at least `(1, 0)`. -/
def uploadCmd (ci : CasInfo) (a : ArtifactConfig) (pathArgs : List String)
    (digestFile detailsFile : String) : List String :=
  uploadCmdCore ci a pathArgs digestFile
  ++ (if versionAtLeast ci.client_version (1, 0)
      then ["-dump-file-details", detailsFile] else [])

/-- The result logic of `_upload`: `None` on a caught subprocess
exception; `None` when the dumped digest is empty; otherwise an
`UploadResult` whose `content_details` is the parse of the details dump
(`json.loads`, modelled by the fallible `parseDetails`), requested and
read only when the client version is at least `(1, 0)`. -/
def uploadArtifact (clientVersion : Nat × Nat) (outcome : ProcOutcome)
    (parseDetails : String → Option (List String)) : Option UploadResult :=
  match outcome with
  | .nonZeroExit => none
  | .timeoutExpired => none
  | .success digestDump detailsDump =>
    if digestDump = "" then none
    else some
      { digest := digestDump
        content_details :=
          if versionAtLeast clientVersion (1, 0)
          then parseDetails detailsDump else none }

/-- Outcome of the `-version` probe subprocess in
`_get_client_version`: either the call itself raised, or it produced
text output. -/
inductive VersionProbe where
  | execFailure
  | output (s : String)

/-- Regex `\d+` with maximal munch: split a leading run of decimal digits. -/
def takeDigits : List Char → List Char × List Char
  | [] => ([], [])
  | c :: rest =>
    if c.isDigit then
      let (d, r) := takeDigits rest
      (c :: d, r)
    else ([], c :: rest)

/-- Python `int()` on a digit string. -/
def parseNatDigits (ds : List Char) : Nat :=
  ds.foldl (fun n c => n * 10 + (c.toNat - '0'.toNat)) 0

/-- Match the regex `version: (\d+\.\d+)` anchored at the start of the
character list, returning the parsed `(major, minor)` pair. -/
def matchVersionAt (cs : List Char) : Option (Nat × Nat) :=
  if ("version: ".data).isPrefixOf cs then
    let rest := cs.drop ("version: ".data).length
    let (d1, r1) := takeDigits rest
    if d1 = [] then none
    else match r1 with
      | '.' :: r2 =>
        let (d2, _) := takeDigits r2
        if d2 = [] then none
        else some (parseNatDigits d1, parseNatDigits d2)
      | _ => none
  else none

/-- Model of `re.findall(r'version: (\d+\.\d+)', version_output)` followed by
`matched[0]`: the leftmost match in the output. -/
def findVersion : List Char → Option (Nat × Nat)
  | [] => none
  | c :: rest =>
    match matchVersionAt (c :: rest) with
    | some v => some v
    | none => findVersion rest

/-- Function `_get_client_version(client_path)`: parse `major.minor` out of the
probe output; on execution failure or when the pattern does not match,
default to `(0, 0)`. -/
def getClientVersion : VersionProbe → Nat × Nat
  | .execFailure => (0, 0)
  | .output s =>
    match findVersion s.data with
    | none => (0, 0)
    | some v => v

/-! ### The upload loop (`_upload_all_artifacts`) -/

/-- Run-scoped mutable state of `_upload_all_artifacts`:
`digests` is the `file_digests` dict (association list in insertion
order, keys unique by construction), `details` the `content_details`
list, `skips` the `skip_files` list.  `uploads` is an instrumentation
field recording every artifact passed to `_upload` (with its
`source_path` already rewritten to the resolved file), so that claims
about which upload subprocesses get invoked are statable. -/
structure RunState where
  digests : List (String × String)
  details : List (String × List String)
  skips : List String
  uploads : List ArtifactConfig
  deriving DecidableEq, Repr

/-- The initial state: empty dict and lists. -/
def initState : RunState := ⟨[], [], [], []⟩

/-- Keys of the digest dict. -/
def keysOf (d : List (String × String)) : List String :=
  d.map Prod.fst

/-- The body of the inner `for f in glob.glob(...)` loop of
`_upload_all_artifacts`, for one resolved file `f` of rule `a`.
`uploadFn` abstracts the `_upload` call (the subprocess and its dumped
files).  Mirrors the source line by line: derive `basename` and `name`;
skip when `name` is in `file_digests` or in `skip_files`; otherwise set
`artifact.source_path = f`, call `_upload`, record the digest and
(conditionally) the basename in `skip_files` when
`artifact.chunk and (not artifact.chunk_fallback or artifact.unzip)`,
and record content details when present and non-empty. -/
def processFile (uploadFn : ArtifactConfig → Option UploadResult)
    (s : RunState) (a : ArtifactConfig) (f : String) : RunState :=
  let b := basenameOf f
  let name := artifactName b a.chunk a.unzip
  if name ∈ keysOf s.digests ∨ name ∈ s.skips then s
  else
    let a' := { a with source_path := f }
    let s0 := { s with uploads := s.uploads ++ [a'] }
    match uploadFn a' with
    | none => s0
    | some r =>
      let s1 :=
        if r.digest ≠ "" then
          { s0 with
            digests := s0.digests ++ [(name, r.digest)]
            skips :=
              if a.chunk && (!a.chunk_fallback || a.unzip)
              then s0.skips ++ [b] else s0.skips }
        else s0
      match r.content_details with
      | some (d :: ds) => { s1 with details := s1.details ++ [(name, d :: ds)] }
      | _ => s1

/-- Fold of `processFile` over an explicit list of (rule, resolved file)
pairs in processing order. -/
def runPairs (uploadFn : ArtifactConfig → Option UploadResult)
    (s : RunState) (ps : List (ArtifactConfig × String)) : RunState :=
  ps.foldl (fun s p => processFile uploadFn s p.1 p.2) s

/-- One iteration of the outer rule loop: resolve the rule's glob
pattern (`resolve` abstracts `glob.glob(dist_dir + '/**/' +
source_path, recursive=True)`) and process every matched file. -/
def processArtifact (uploadFn : ArtifactConfig → Option UploadResult)
    (resolve : String → List String) (s : RunState) (a : ArtifactConfig) :
    RunState :=
  runPairs uploadFn s ((resolve a.source_path).map (fun f => (a, f)))

/-- Function `_upload_all_artifacts`: expand fallbacks, then process every rule
in order. -/
def uploadAllArtifacts (uploadFn : ArtifactConfig → Option UploadResult)
    (resolve : String → List String) (artifacts : List ArtifactConfig) :
    RunState :=
  (addFallbackArtifacts artifacts).foldl (processArtifact uploadFn resolve)
    initState

/-! ### Environment lookup and driver (`_get_env_var`, `_init_cas_info`,
`main`) -/

/-- Function `_get_env_var(key, check=True)` with no default: look the key up in
the environment (`env`, modelling `os.environ.get`); raise `ValueError`
when the value is missing or falsy (the empty string). -/
def getEnvVarCheck (env : String → Option String) (key : String) :
    Except String String :=
  match env key with
  | none => .error ("Error: the environment variable " ++ key ++ " is not set")
  | some v =>
    if v = "" then
      .error ("Error: the environment variable " ++ key ++ " is not set")
    else .ok v

/-- Function `_init_cas_info()`: requires `RBE_instance` and `RBE_service` (in
that order); the client path and the version probe are passed in. -/
def initCasInfo (env : String → Option String) (clientPath : String)
    (probe : VersionProbe) : Except String CasInfo := do
  let inst ← getEnvVarCheck env "RBE_instance"
  let svc ← getEnvVarCheck env "RBE_service"
  .ok ⟨inst, svc, clientPath, getClientVersion probe⟩

/-- The environment-dependent skeleton of `main()` (without the
prebuilt-proxy path, which the spec scopes out as an external
collaborator): `DIST_DIR` is required first, then `_init_cas_info`
requires the two RBE variables, and only in the success case does the
upload loop run — an environment error propagates before any upload
subprocess is invoked. -/
def mainRun (env : String → Option String) (clientPath : String)
    (probe : VersionProbe)
    (uploadFn : CasInfo → ArtifactConfig → Option UploadResult)
    (resolve : String → List String) (artifacts : List ArtifactConfig) :
    Except String RunState := do
  let _distDir ← getEnvVarCheck env "DIST_DIR"
  let casInfo ← initCasInfo env clientPath probe
  .ok (uploadAllArtifacts (uploadFn casInfo) resolve artifacts)

/-- Predicate for absent-or-empty required environment variables. -/
def envMissing (env : String → Option String) (key : String) : Prop :=
  env key = none ∨ env key = some ""

/-! ### Result aggregation (`_output_results`) -/

/-- One hexadecimal digit, lowercase (as produced by `json.dumps`). -/
def hexDigit (n : Nat) : Char :=
  if n < 10 then Char.ofNat ('0'.toNat + n)
  else Char.ofNat ('a'.toNat + (n - 10))

/-- Four-digit hexadecimal rendering for `\uXXXX` escapes. -/
def hex4 (n : Nat) : String :=
  ⟨[hexDigit (n / 4096 % 16), hexDigit (n / 256 % 16),
    hexDigit (n / 16 % 16), hexDigit (n % 16)]⟩

/-- The `\uXXXX` escape of a code point, using a surrogate pair beyond the
basic multilingual plane (`json.dumps` default `ensure_ascii=True`). -/
def unicodeEscape (n : Nat) : String :=
  if n ≤ 0xFFFF then "\\u" ++ hex4 n
  else
    let m := n - 0x10000
    "\\u" ++ hex4 (0xD800 + m / 0x400) ++ "\\u" ++ hex4 (0xDC00 + m % 0x400)

/-- JSON escaping of a single character, following `json.dumps` with
its default `ensure_ascii=True`. -/
def jsonEscapeChar (c : Char) : String :=
  if c = '"' then "\\\""
  else if c = '\\' then "\\\\"
  else if c = '\n' then "\\n"
  else if c = '\r' then "\\r"
  else if c = '\t' then "\\t"
  else if c = Char.ofNat 8 then "\\b"
  else if c = Char.ofNat 12 then "\\f"
  else if c.toNat < 0x20 ∨ c.toNat ≥ 0x7f then unicodeEscape c.toNat
  else String.singleton c

/-- JSON string escaping. -/
def jsonEscape (s : String) : String :=
  String.join (s.data.map jsonEscapeChar)

/-- A JSON string literal. -/
def jsonQuote (s : String) : String :=
  "\"" ++ jsonEscape s ++ "\""

/-- Effect of `sort_keys=True` on the `files` dict: entries ordered by key.
(`insertionSort` is a stable sort, and dict keys are unique, so this is
the order `json.dumps` emits.) -/
def sortPairs (ps : List (String × String)) : List (String × String) :=
  List.insertionSort (fun p q => p.1 ≤ q.1) ps

/-- The `files` member rendered by `json.dumps(..., indent=2)`:
entries at indentation 4, closing brace at indentation 2 (object
nested at depth 1). -/
def renderFilesObj (ps : List (String × String)) : String :=
  match ps with
  | [] => "\x7b\x7d"
  | _ =>
    "\x7b\n"
    ++ String.intercalate ",\n"
        (ps.map (fun p => "    " ++ jsonQuote p.1 ++ ": " ++ jsonQuote p.2))
    ++ "\n  \x7d"

/-- Python `'.'.join(map(str, cas_info.client_version))` for the pair model. -/
def clientVersionString (v : Nat × Nat) : String :=
  toString v.1 ++ "." ++ toString v.2

/-- The digest manifest written by `_output_results`:
`json.dumps(digests_output, sort_keys=True, indent=2)` where
`digests_output` has the four keys `cas_instance`, `cas_service`,
`client_version`, `files` (listed here in their sorted order) and
`files` is the collected digest dict. -/
def outputDigests (ci : CasInfo) (files : List (String × String)) : String :=
  "\x7b\n  " ++ jsonQuote "cas_instance" ++ ": " ++ jsonQuote ci.cas_instance
  ++ ",\n  " ++ jsonQuote "cas_service" ++ ": " ++ jsonQuote ci.cas_service
  ++ ",\n  " ++ jsonQuote "client_version" ++ ": "
  ++ jsonQuote (clientVersionString ci.client_version)
  ++ ",\n  " ++ jsonQuote "files" ++ ": " ++ renderFilesObj (sortPairs files)
  ++ "\n\x7d"

/-! ### Shared lemmas about the upload loop -/

/-- Lemma: `uploadAllArtifacts` with the fallback expansion rewritten to its
(kernel-reducible) closed form. -/
theorem uploadAllArtifacts_expand
    (u : ArtifactConfig → Option UploadResult) (r : String → List String)
    (xs : List ArtifactConfig) :
    uploadAllArtifacts u r xs =
      (xs ++ gen1 xs ++ gen2 xs).foldl (processArtifact u r) initState := by
  rw [uploadAllArtifacts, addFallbackArtifacts_closed]

theorem runPairs_nil (u : ArtifactConfig → Option UploadResult)
    (s : RunState) : runPairs u s [] = s := rfl

theorem runPairs_cons (u : ArtifactConfig → Option UploadResult)
    (s : RunState) (p : ArtifactConfig × String)
    (ps : List (ArtifactConfig × String)) :
    runPairs u s (p :: ps) = runPairs u (processFile u s p.1 p.2) ps := rfl

theorem runPairs_append (u : ArtifactConfig → Option UploadResult)
    (s : RunState) (ps qs : List (ArtifactConfig × String)) :
    runPairs u s (ps ++ qs) = runPairs u (runPairs u s ps) qs := by
  simp [runPairs]

theorem foldl_processArtifact_eq_runPairs
    (u : ArtifactConfig → Option UploadResult) (r : String → List String) :
    ∀ (L : List ArtifactConfig) (s : RunState),
      L.foldl (processArtifact u r) s =
        runPairs u s
          (L.flatMap (fun a => (r a.source_path).map (fun f => (a, f)))) := by
  intro L
  induction L with
  | nil => intro s; rfl
  | cons a L ih =>
    intro s
    simp only [List.foldl_cons, List.flatMap_cons]
    rw [runPairs_append, ih]
    rfl

/-- The whole run is the fold of `processFile` over the flattened
(rule, resolved file) pair list, in processing order. -/
theorem uploadAllArtifacts_eq_runPairs
    (u : ArtifactConfig → Option UploadResult) (r : String → List String)
    (xs : List ArtifactConfig) :
    uploadAllArtifacts u r xs =
      runPairs u initState
        ((addFallbackArtifacts xs).flatMap
          (fun a => (r a.source_path).map (fun f => (a, f)))) := by
  rw [uploadAllArtifacts]
  exact foldl_processArtifact_eq_runPairs u r _ _

/-- A skipped file leaves the state untouched (`continue`). -/
theorem processFile_skipped (u : ArtifactConfig → Option UploadResult)
    (s : RunState) (a : ArtifactConfig) (f : String)
    (h : artifactName (basenameOf f) a.chunk a.unzip ∈ keysOf s.digests ∨
         artifactName (basenameOf f) a.chunk a.unzip ∈ s.skips) :
    processFile u s a f = s := by
  simp only [processFile]
  rw [if_pos h]

/-- A file that is not skipped is passed to `_upload` (with its
`source_path` rewritten), and nothing else is ever appended to the
upload trace. -/
theorem processFile_not_skipped_uploads
    (u : ArtifactConfig → Option UploadResult)
    (s : RunState) (a : ArtifactConfig) (f : String)
    (h : ¬(artifactName (basenameOf f) a.chunk a.unzip ∈ keysOf s.digests ∨
           artifactName (basenameOf f) a.chunk a.unzip ∈ s.skips)) :
    (processFile u s a f).uploads =
      s.uploads ++ [{ a with source_path := f }] := by
  simp only [processFile]
  rw [if_neg h]
  cases hu : u { a with source_path := f } with
  | none => rfl
  | some r =>
    by_cases hd : r.digest = "" <;> simp [hd] <;> split <;> rfl

/-- Display name of a non-chunked rule is the bare basename. -/
theorem artifactName_not_chunk (b : String) (u : Bool) :
    artifactName b false u = b := by
  simp [artifactName]

/-- The skip list after one file: unchanged, or extended by exactly the
file's basename. -/
theorem processFile_skips_shape (u : ArtifactConfig → Option UploadResult)
    (s : RunState) (a : ArtifactConfig) (f : String) :
    (processFile u s a f).skips = s.skips ∨
    (processFile u s a f).skips = s.skips ++ [basenameOf f] := by
  simp only [processFile]
  repeat' split
  all_goals first
  | exact Or.inl rfl
  | exact Or.inr rfl

/-- The digest dict after one file: unchanged, or extended by exactly
one entry, keyed by the file's display name, holding the non-empty
digest returned by `_upload` for this file, where the display name was
not yet a key. -/
theorem processFile_digests_shape (u : ArtifactConfig → Option UploadResult)
    (s : RunState) (a : ArtifactConfig) (f : String) :
    (processFile u s a f).digests = s.digests ∨
    ∃ r, u { a with source_path := f } = some r ∧ r.digest ≠ "" ∧
      (processFile u s a f).digests =
        s.digests ++ [(artifactName (basenameOf f) a.chunk a.unzip, r.digest)] ∧
      artifactName (basenameOf f) a.chunk a.unzip ∉ keysOf s.digests := by
  by_cases h : artifactName (basenameOf f) a.chunk a.unzip ∈ keysOf s.digests ∨
      artifactName (basenameOf f) a.chunk a.unzip ∈ s.skips
  · rw [processFile_skipped u s a f h]
    exact Or.inl rfl
  · have hfresh : artifactName (basenameOf f) a.chunk a.unzip ∉ keysOf s.digests := by
      tauto
    simp only [processFile]
    rw [if_neg h]
    cases hu : u { a with source_path := f } with
    | none => exact Or.inl rfl
    | some r =>
      by_cases hd : r.digest = ""
      · refine Or.inl ?_
        simp only [hd, ne_eq, not_true_eq_false, if_false, ite_false]
        split <;> simp
      · refine Or.inr ⟨r, rfl, hd, ?_, hfresh⟩
        simp only [ne_eq, hd, not_false_eq_true, if_true, ite_true]
        split <;> simp

/-- A failed `_upload` call (no result) changes nothing except the
upload trace: the digest dict, details list and skip list all stay as
they were, and processing simply moves on. -/
theorem processFile_fail (u : ArtifactConfig → Option UploadResult)
    (s : RunState) (a : ArtifactConfig) (f : String)
    (h : ¬(artifactName (basenameOf f) a.chunk a.unzip ∈ keysOf s.digests ∨
           artifactName (basenameOf f) a.chunk a.unzip ∈ s.skips))
    (hu : u { a with source_path := f } = none) :
    processFile u s a f =
      { s with uploads := s.uploads ++ [{ a with source_path := f }] } := by
  simp only [processFile]
  rw [if_neg h, hu]

/-- A successful `_upload` (digest dumped and non-empty) records the
digest under the display name and extends the skip list exactly under
the source condition
`artifact.chunk and (not artifact.chunk_fallback or artifact.unzip)`. -/
theorem processFile_success (u : ArtifactConfig → Option UploadResult)
    (s : RunState) (a : ArtifactConfig) (f : String) (r : UploadResult)
    (h : ¬(artifactName (basenameOf f) a.chunk a.unzip ∈ keysOf s.digests ∨
           artifactName (basenameOf f) a.chunk a.unzip ∈ s.skips))
    (hu : u { a with source_path := f } = some r) (hd : r.digest ≠ "") :
    (processFile u s a f).digests =
      s.digests ++ [(artifactName (basenameOf f) a.chunk a.unzip, r.digest)] ∧
    (processFile u s a f).skips =
      (if a.chunk && (!a.chunk_fallback || a.unzip)
       then s.skips ++ [basenameOf f] else s.skips) := by
  simp only [processFile]
  rw [if_neg h, hu]
  simp only [ne_eq, hd, not_false_eq_true, if_true, ite_true]
  constructor <;> (split <;> simp)

theorem processFile_skips_mono (u : ArtifactConfig → Option UploadResult)
    (s : RunState) (a : ArtifactConfig) (f : String) (x : String)
    (hx : x ∈ s.skips) : x ∈ (processFile u s a f).skips := by
  rcases processFile_skips_shape u s a f with h | h <;> rw [h] <;>
    simp [hx]

theorem processFile_keys_mono (u : ArtifactConfig → Option UploadResult)
    (s : RunState) (a : ArtifactConfig) (f : String) (k : String)
    (hk : k ∈ keysOf s.digests) : k ∈ keysOf (processFile u s a f).digests := by
  rcases processFile_digests_shape u s a f with h | ⟨r, _, _, h, _⟩ <;>
    rw [h] <;> simp [keysOf] <;> simp [keysOf] at hk <;> tauto

/-- Every entry of the upload trace after one file is either an old
entry, or the resolved artifact of this very file, uploaded only
because its display name was in neither the digest dict nor the skip
list. -/
theorem processFile_new_upload (u : ArtifactConfig → Option UploadResult)
    (s : RunState) (a : ArtifactConfig) (f : String) :
    ∀ x ∈ (processFile u s a f).uploads, x ∈ s.uploads ∨
      (x = { a with source_path := f } ∧
       artifactName (basenameOf f) a.chunk a.unzip ∉ keysOf s.digests ∧
       artifactName (basenameOf f) a.chunk a.unzip ∉ s.skips) := by
  intro x hx
  by_cases h : artifactName (basenameOf f) a.chunk a.unzip ∈ keysOf s.digests ∨
      artifactName (basenameOf f) a.chunk a.unzip ∈ s.skips
  · rw [processFile_skipped u s a f h] at hx
    exact Or.inl hx
  · rw [processFile_not_skipped_uploads u s a f h] at hx
    rcases List.mem_append.mp hx with h1 | h2
    · exact Or.inl h1
    · right
      refine ⟨List.mem_singleton.mp h2, ?_, ?_⟩ <;> tauto

theorem processFile_keys_nodup (u : ArtifactConfig → Option UploadResult)
    (s : RunState) (a : ArtifactConfig) (f : String)
    (hn : (keysOf s.digests).Nodup) :
    (keysOf (processFile u s a f).digests).Nodup := by
  rcases processFile_digests_shape u s a f with h | ⟨r, _, _, h, hfresh⟩ <;>
    rw [h]
  · exact hn
  · simp only [keysOf, List.map_append, List.map_cons, List.map_nil]
    rw [List.nodup_append]
    exact ⟨hn, List.nodup_singleton _, by simpa [keysOf] using hfresh⟩

theorem runPairs_skips_mono (u : ArtifactConfig → Option UploadResult)
    (ps : List (ArtifactConfig × String)) :
    ∀ (s : RunState) (x : String), x ∈ s.skips →
      x ∈ (runPairs u s ps).skips := by
  induction ps with
  | nil => intro s x hx; exact hx
  | cons p ps ih =>
    intro s x hx
    rw [runPairs_cons]
    exact ih _ x (processFile_skips_mono u s p.1 p.2 x hx)

theorem runPairs_keys_mono (u : ArtifactConfig → Option UploadResult)
    (ps : List (ArtifactConfig × String)) :
    ∀ (s : RunState) (k : String), k ∈ keysOf s.digests →
      k ∈ keysOf (runPairs u s ps).digests := by
  induction ps with
  | nil => intro s k hk; exact hk
  | cons p ps ih =>
    intro s k hk
    rw [runPairs_cons]
    exact ih _ k (processFile_keys_mono u s p.1 p.2 k hk)

/-- Once a basename is in the skip list, no later iteration of the run
uploads a non-chunked (plain-name) artifact for a file with that
basename: its display name is the basename itself, and the skip check
suppresses it. -/
theorem runPairs_no_plain_upload (u : ArtifactConfig → Option UploadResult)
    (ps : List (ArtifactConfig × String)) :
    ∀ (s : RunState) (b : String), b ∈ s.skips →
      ∀ x ∈ (runPairs u s ps).uploads, x ∈ s.uploads ∨
        ¬(x.chunk = false ∧ basenameOf x.source_path = b) := by
  induction ps with
  | nil => intro s b _ x hx; exact Or.inl hx
  | cons p ps ih =>
    intro s b hb x hx
    rw [runPairs_cons] at hx
    have hb' : b ∈ (processFile u s p.1 p.2).skips :=
      processFile_skips_mono u s p.1 p.2 b hb
    rcases ih _ b hb' x hx with h1 | h2
    · rcases processFile_new_upload u s p.1 p.2 x h1 with ha | ⟨hxa, _, hs⟩
      · exact Or.inl ha
      · right
        rintro ⟨hchunk, hbn⟩
        apply hs
        have hc : p.1.chunk = false := by rw [hxa] at hchunk; exact hchunk
        have hf : basenameOf p.2 = b := by rw [hxa] at hbn; exact hbn
        rw [hc, artifactName_not_chunk, hf]
        exact hb
    · exact Or.inr h2

/-- Once a display name is a key of the digest dict, no later iteration
uploads a file deriving that display name. -/
theorem runPairs_no_recorded_upload (u : ArtifactConfig → Option UploadResult)
    (ps : List (ArtifactConfig × String)) :
    ∀ (s : RunState), ∀ x ∈ (runPairs u s ps).uploads, x ∈ s.uploads ∨
      artifactName (basenameOf x.source_path) x.chunk x.unzip ∉
        keysOf s.digests := by
  induction ps with
  | nil => intro s x hx; exact Or.inl hx
  | cons p ps ih =>
    intro s x hx
    rw [runPairs_cons] at hx
    rcases ih _ x hx with h1 | h2
    · rcases processFile_new_upload u s p.1 p.2 x h1 with ha | ⟨hxa, hk, _⟩
      · exact Or.inl ha
      · right
        have : x.source_path = p.2 ∧ x.chunk = p.1.chunk ∧ x.unzip = p.1.unzip := by
          rw [hxa]; exact ⟨rfl, rfl, rfl⟩
        rw [this.1, this.2.1, this.2.2]
        exact hk
    · right
      intro hmem
      exact h2 (processFile_keys_mono u s p.1 p.2 _ hmem)

theorem runPairs_keys_nodup (u : ArtifactConfig → Option UploadResult)
    (ps : List (ArtifactConfig × String)) :
    ∀ (s : RunState), (keysOf s.digests).Nodup →
      (keysOf (runPairs u s ps).digests).Nodup := by
  induction ps with
  | nil => intro s hn; exact hn
  | cons p ps ih =>
    intro s hn
    rw [runPairs_cons]
    exact ih _ (processFile_keys_nodup u s p.1 p.2 hn)

/-- If a name is absent from the digest dict and every pair deriving it
fails to upload, the name is still absent at the end. -/
theorem runPairs_name_absent (u : ArtifactConfig → Option UploadResult)
    (ps : List (ArtifactConfig × String)) (n : String) :
    ∀ (s : RunState), n ∉ keysOf s.digests →
      (∀ p ∈ ps, artifactName (basenameOf p.2) p.1.chunk p.1.unzip = n →
        u { p.1 with source_path := p.2 } = none) →
      n ∉ keysOf (runPairs u s ps).digests := by
  induction ps with
  | nil => intro s habs _; exact habs
  | cons p ps ih =>
    intro s habs hfail
    rw [runPairs_cons]
    refine ih _ ?_ (fun q hq => hfail q (List.mem_cons_of_mem p hq))
    rcases processFile_digests_shape u s p.1 p.2 with h | ⟨r, hu, _, h, _⟩
    · rw [h]; exact habs
    · rw [h]
      simp only [keysOf, List.map_append, List.map_cons, List.map_nil,
        List.mem_append, List.mem_singleton]
      rintro (hk | hk)
      · exact habs (by simpa [keysOf] using hk)
      · have := hfail p (List.mem_cons_self p ps) hk.symm
        rw [this] at hu
        exact Option.noConfusion hu

/-! ### Basename and sorting facts -/

theorem foldl_basename_no_slash (bs : List Char) (h : ∀ c ∈ bs, c ≠ '/') :
    ∀ acc, bs.foldl (fun acc c => if c = '/' then [] else acc ++ [c]) acc =
      acc ++ bs := by
  induction bs with
  | nil => intro acc; simp
  | cons c bs ih =>
    intro acc
    have hc : c ≠ '/' := h c (List.mem_cons_self c bs)
    simp only [List.foldl_cons, if_neg hc]
    rw [ih (fun d hd => h d (List.mem_cons_of_mem c hd))]
    simp

/-- Basename of a path `dir ++ "/" ++ b` with a slash-free
final component is that component, regardless of the directory. -/
theorem basenameOf_dir_append (d b : String) (h : ∀ c ∈ b.data, c ≠ '/') :
    basenameOf (d ++ "/" ++ b) = b := by
  unfold basenameOf basenameChars
  have hdata : (d ++ "/" ++ b).data = (d.data ++ ['/']) ++ b.data := by
    simp [String.data_append]
  rw [hdata, List.foldl_append]
  have hslash : (d.data ++ ['/']).foldl
      (fun acc c => if c = '/' then [] else acc ++ [c]) [] = [] := by
    rw [List.foldl_append]
    simp
  rw [hslash, foldl_basename_no_slash b.data h []]
  simp

instance : IsTotal (String × String) (fun p q => p.1 ≤ q.1) :=
  ⟨fun a b => le_total a.1 b.1⟩

instance : IsTrans (String × String) (fun p q => p.1 ≤ q.1) :=
  ⟨fun _ _ _ hab hbc => le_trans hab hbc⟩

/-! ### Claim theorems -/

/-- The chunk-and-fallback device-image rule
`ArtifactConfig('*-img-*zip', True, True, True)` from the catalog. -/
def sampleImgRule : ArtifactConfig := ⟨"*-img-*zip", true, true, true, []⟩

/-- Claim C1: For every rule in the working list with `chunk=true` and
`chunk_fallback=true`, the expansion step synthesizes exactly one
fallback for it: the final list is the input followed by the
synthesized rules (`gen1` then `gen2`); the rules of the final list
that qualify are the qualifying input rules plus the qualifying
first-generation fallbacks, and the synthesized rules are exactly one
`fallbackOf` image of each of them, in order; the fallback flips
`unzip` to `false` when the original has `unzip=true` and otherwise
flips `chunk` to `false`; and each qualifying input rule's fallback
sits at a strictly later position of the working list. -/
theorem fallback_expansion_exactly_one (xs : List ArtifactConfig) :
    addFallbackArtifacts xs = xs ++ gen1 xs ++ gen2 xs
    ∧ (addFallbackArtifacts xs).filter needsFallback
        = xs.filter needsFallback ++ (gen1 xs).filter needsFallback
    ∧ ((addFallbackArtifacts xs).filter needsFallback).map fallbackOf
        = gen1 xs ++ gen2 xs
    ∧ (∀ a, needsFallback a = true →
        (a.unzip = true → fallbackOf a = { a with unzip := false })
        ∧ (a.unzip = false → fallbackOf a = { a with chunk := false }))
    ∧ (∀ i, (hi : i < xs.length) → needsFallback xs[i] = true →
        ∃ j, ∃ hj : j < (addFallbackArtifacts xs).length,
          i < j ∧ (addFallbackArtifacts xs).get ⟨j, hj⟩ = fallbackOf xs[i]) := by
  have hclosed := addFallbackArtifacts_closed xs
  have hgen2 : (gen2 xs).filter needsFallback = [] := by
    rw [List.filter_eq_nil_iff]
    intro a ha
    rcases List.mem_map.mp ha with ⟨y, hy, hya⟩
    rcases List.mem_filter.mp hy with ⟨hy1, _⟩
    rcases List.mem_map.mp hy1 with ⟨x, _, hxy⟩
    rw [← hya, ← hxy]
    simp [needsFallback_fallbackOf_fallbackOf]
  refine ⟨hclosed, ?_, ?_, ?_, ?_⟩
  · rw [hclosed]
    simp [List.filter_append, hgen2]
  · rw [hclosed]
    simp only [List.filter_append, hgen2, List.append_nil, List.map_append]
    rfl
  · intro a _
    constructor <;> intro hu <;> simp [fallbackOf, hu]
  · intro i hi hnf
    have hmem : fallbackOf xs[i] ∈ gen1 xs := by
      exact List.mem_map.mpr
        ⟨xs[i], List.mem_filter.mpr ⟨List.getElem_mem hi, hnf⟩, rfl⟩
    rcases List.mem_iff_getElem.mp hmem with ⟨k, hk, hgk⟩
    have hlen : (addFallbackArtifacts xs).length =
        xs.length + (gen1 xs).length + (gen2 xs).length := by
      rw [hclosed]; simp; omega
    have hj : xs.length + k < (addFallbackArtifacts xs).length := by
      omega
    refine ⟨xs.length + k, hj, by omega, ?_⟩
    rw [List.get_eq_getElem]
    rw [List.getElem_of_eq hclosed hj]
    rw [List.getElem_append_left (by simp; omega)]
    rw [List.getElem_append_right (by omega)]
    have hkk : xs.length + k - xs.length = k := by omega
    simp only [hkk]
    exact hgk

/-- Witness for C1 at the concrete device-image rule. -/
theorem fallback_expansion_exactly_one_witness :
    needsFallback sampleImgRule = true ∧
    (0 : Nat) < [sampleImgRule].length ∧
    ∃ j, ∃ hj : j < (addFallbackArtifacts [sampleImgRule]).length,
      0 < j ∧ (addFallbackArtifacts [sampleImgRule]).get ⟨j, hj⟩ =
        fallbackOf [sampleImgRule][0] :=
  ⟨by decide, by decide,
    (fallback_expansion_exactly_one [sampleImgRule]).2.2.2.2 0 (by decide)
      (by decide)⟩

/-- The skip list stays unchanged when `_upload` returns a result with
an empty digest (`if result and result.digest` fails). -/
theorem processFile_empty_digest_skips
    (u : ArtifactConfig → Option UploadResult)
    (s : RunState) (a : ArtifactConfig) (f : String) (r : UploadResult)
    (h : ¬(artifactName (basenameOf f) a.chunk a.unzip ∈ keysOf s.digests ∨
           artifactName (basenameOf f) a.chunk a.unzip ∈ s.skips))
    (hu : u { a with source_path := f } = some r) (hd : r.digest = "") :
    (processFile u s a f).skips = s.skips := by
  simp only [processFile]
  rw [if_neg h, hu]
  simp only [hd, ne_eq, not_true_eq_false, if_false, ite_false]
  split <;> rfl

/-- An always-successful upload oracle returning a fixed digest. -/
def cexUploadFn : ArtifactConfig → Option UploadResult :=
  fun _ => some ⟨"abcd1234/2048", none⟩

/-- A resolver matching one device-image file for every pattern. -/
def cexResolve : String → List String :=
  fun _ => ["out/x-img-1.zip"]

/-- Claim C2, counterexample: One rule `('*-img-*zip', unzip=True,
chunk=True, chunk_fallback=True)`, one matched file, all uploads
succeed.  The chunked-directory digest is recorded, yet the fallback
synthesized from the rule (the `unzip=False` chunked copy) is passed to
`_upload` for the very same physical file afterwards: the upload trace
consists of exactly the original upload followed by that fallback's
upload.  (Only the second-generation, plain fallback is suppressed.) -/
theorem chunked_dir_fallback_upload_cex :
    ("_chunked_dir_x-img-1.zip", "abcd1234/2048") ∈
      (uploadAllArtifacts cexUploadFn cexResolve [sampleImgRule]).digests
    ∧ (uploadAllArtifacts cexUploadFn cexResolve [sampleImgRule]).uploads =
      [{ sampleImgRule with source_path := "out/x-img-1.zip" },
       { fallbackOf sampleImgRule with source_path := "out/x-img-1.zip" }] := by
  rw [uploadAllArtifacts_expand]
  decide

/-- Claim C2 (amended): After a successful chunked-directory upload of a
`unzip=true, chunk=true, chunk_fallback=true` rule, the digest is
recorded under the `_chunked_dir_` display name and the file's basename
enters the skip list, so no *non-chunked* (`chunk=false`) rule — in
particular the second-generation plain fallback — ever uploads a file
with that basename later in the run.  (The first-generation
`unzip=false, chunk=true` fallback is not suppressed: it uploads the
same physical file under the distinct `_chunked_` display name, as the
counterexample shows.) -/
theorem chunked_dir_fallback_suppression
    (u : ArtifactConfig → Option UploadResult)
    (s : RunState) (R : ArtifactConfig) (f : String) (r : UploadResult)
    (ps : List (ArtifactConfig × String))
    (hu : R.unzip = true) (hc : R.chunk = true) (hf : R.chunk_fallback = true)
    (hns : ¬(artifactName (basenameOf f) R.chunk R.unzip ∈ keysOf s.digests ∨
             artifactName (basenameOf f) R.chunk R.unzip ∈ s.skips))
    (hres : u { R with source_path := f } = some r) (hd : r.digest ≠ "") :
    (processFile u s R f).digests =
      s.digests ++ [(CHUNKED_DIR_ARTIFACT_NAME_TAG ++ basenameOf f, r.digest)]
    ∧ basenameOf f ∈ (processFile u s R f).skips
    ∧ ∀ x ∈ (runPairs u (processFile u s R f) ps).uploads,
        x ∈ (processFile u s R f).uploads ∨
        ¬(x.chunk = false ∧ basenameOf x.source_path = basenameOf f) := by
  have hsucc := processFile_success u s R f r hns hres hd
  have hname : artifactName (basenameOf f) R.chunk R.unzip =
      CHUNKED_DIR_ARTIFACT_NAME_TAG ++ basenameOf f := by
    rw [hc, hu]
    simp [artifactName]
  have hcond : (R.chunk && (!R.chunk_fallback || R.unzip)) = true := by
    rw [hc, hu, hf]
    rfl
  have hskips : (processFile u s R f).skips = s.skips ++ [basenameOf f] := by
    rw [hsucc.2, if_pos hcond]
  refine ⟨by rw [hsucc.1, hname], ?_, ?_⟩
  · rw [hskips]; simp
  · exact runPairs_no_plain_upload u ps _ (basenameOf f)
      (by rw [hskips]; simp)

/-- Witness for C2 (amended) at the concrete device-image scenario. -/
theorem chunked_dir_fallback_suppression_witness :
    (processFile cexUploadFn initState sampleImgRule "out/x-img-1.zip").digests
      = [(CHUNKED_DIR_ARTIFACT_NAME_TAG ++ basenameOf "out/x-img-1.zip",
          "abcd1234/2048")]
    ∧ basenameOf "out/x-img-1.zip" ∈
      (processFile cexUploadFn initState sampleImgRule "out/x-img-1.zip").skips :=
  ⟨(chunked_dir_fallback_suppression cexUploadFn initState sampleImgRule
      "out/x-img-1.zip" ⟨"abcd1234/2048", none⟩ [] rfl rfl rfl (by decide)
      rfl (by decide)).1,
   (chunked_dir_fallback_suppression cexUploadFn initState sampleImgRule
      "out/x-img-1.zip" ⟨"abcd1234/2048", none⟩ [] rfl rfl rfl (by decide)
      rfl (by decide)).2.1⟩

/-- A mid-run state: the chunked-directory digest of `o/f.zip` is
recorded and its basename is in the skip list. -/
def cexSkipState : RunState :=
  ⟨[("_chunked_dir_f.zip", "abcd1234/2048")], [], ["f.zip"],
   [{ sampleImgRule with source_path := "o/f.zip" }]⟩

/-- Claim C3, counterexample: The loop's skip test is
`name in file_digests or name in skip_files` — membership of the
*display name* in the skip list, not of the physical basename.  Here
the basename `f.zip` *is* in the skip list, the display name
`_chunked_f.zip` is not, and the file is not skipped: the state
changes (an upload is invoked). -/
theorem skip_condition_basename_cex :
    basenameOf "o/f.zip" ∈ cexSkipState.skips
    ∧ processFile cexUploadFn cexSkipState (fallbackOf sampleImgRule) "o/f.zip"
        ≠ cexSkipState := by
  decide

/-- Claim C3 (amended): A resolved file is skipped entirely (the state,
including the upload trace and the digest dict, is untouched) exactly
when its derived display name is already a key of the digest dict or
the display name is a member of the skip list; otherwise the resolved
artifact is passed to `_upload`. -/
theorem skip_condition_exact (u : ArtifactConfig → Option UploadResult)
    (s : RunState) (a : ArtifactConfig) (f : String) :
    (processFile u s a f = s ↔
      (artifactName (basenameOf f) a.chunk a.unzip ∈ keysOf s.digests ∨
       artifactName (basenameOf f) a.chunk a.unzip ∈ s.skips))
    ∧ (¬(artifactName (basenameOf f) a.chunk a.unzip ∈ keysOf s.digests ∨
         artifactName (basenameOf f) a.chunk a.unzip ∈ s.skips) →
       (processFile u s a f).uploads =
         s.uploads ++ [{ a with source_path := f }]) := by
  constructor
  · constructor
    · intro he
      by_contra hcond
      have := processFile_not_skipped_uploads u s a f hcond
      rw [he] at this
      have hlen := congrArg List.length this
      simp at hlen
    · exact processFile_skipped u s a f
  · exact processFile_not_skipped_uploads u s a f

/-- Witness for C3 (amended): a skipped and a non-skipped instance. -/
theorem skip_condition_exact_witness :
    processFile cexUploadFn cexSkipState sampleImgRule "o/f.zip" = cexSkipState
    ∧ (processFile cexUploadFn cexSkipState (fallbackOf sampleImgRule)
        "o/f.zip").uploads =
      cexSkipState.uploads ++
        [{ fallbackOf sampleImgRule with source_path := "o/f.zip" }] :=
  ⟨(skip_condition_exact cexUploadFn cexSkipState sampleImgRule "o/f.zip").1.mpr
      (by decide),
   (skip_condition_exact cexUploadFn cexSkipState (fallbackOf sampleImgRule)
      "o/f.zip").2 (by decide)⟩

/-- Claim C4, counterexample: The source condition for extending the
skip list is `artifact.chunk and (not artifact.chunk_fallback or
artifact.unzip)`.  For a rule that is *both* fallback-enabled and
directory-based (`chunk=true, chunk_fallback=true, unzip=true`) the
claim predicts an unchanged skip set, but the code appends the
basename after the successful upload. -/
theorem skip_set_update_cex :
    sampleImgRule.chunk = true ∧ sampleImgRule.chunk_fallback = true
    ∧ sampleImgRule.unzip = true
    ∧ (cexUploadFn { sampleImgRule with source_path := "o/f.zip" }).isSome = true
    ∧ (processFile cexUploadFn initState sampleImgRule "o/f.zip").skips
        = [basenameOf "o/f.zip"]
    ∧ initState.skips = [] := by
  decide

/-- Claim C4 (amended): After a non-skipped upload attempt, the skip set
is extended by the file's basename exactly when the upload succeeded
with a non-empty digest and the rule has `chunk=true` and
(`chunk_fallback=false` or `unzip=true`); after a failed attempt or an
empty digest, the skip set is unchanged. -/
theorem skip_set_update_exact (u : ArtifactConfig → Option UploadResult)
    (s : RunState) (a : ArtifactConfig) (f : String)
    (hns : ¬(artifactName (basenameOf f) a.chunk a.unzip ∈ keysOf s.digests ∨
             artifactName (basenameOf f) a.chunk a.unzip ∈ s.skips)) :
    (∀ r, u { a with source_path := f } = some r → r.digest ≠ "" →
      (processFile u s a f).skips =
        (if a.chunk && (!a.chunk_fallback || a.unzip)
         then s.skips ++ [basenameOf f] else s.skips))
    ∧ (∀ r, u { a with source_path := f } = some r → r.digest = "" →
      (processFile u s a f).skips = s.skips)
    ∧ (u { a with source_path := f } = none →
      (processFile u s a f).skips = s.skips) := by
  refine ⟨?_, ?_, ?_⟩
  · intro r hu hd
    exact (processFile_success u s a f r hns hu hd).2
  · intro r hu hd
    exact processFile_empty_digest_skips u s a f r hns hu hd
  · intro hu
    rw [processFile_fail u s a f hns hu]

/-- Witness for C4 (amended): the skip set gains the basename for the
device-image rule. -/
theorem skip_set_update_exact_witness :
    (processFile cexUploadFn initState sampleImgRule "o/f.zip").skips =
      (if sampleImgRule.chunk &&
          (!sampleImgRule.chunk_fallback || sampleImgRule.unzip)
       then initState.skips ++ [basenameOf "o/f.zip"] else initState.skips) :=
  (skip_set_update_exact cexUploadFn initState sampleImgRule "o/f.zip"
      (by decide)).1 ⟨"abcd1234/2048", none⟩ rfl (by decide)

/-- Claim C5: `_path_for_artifact` resolves the rule flags into three
mutually exclusive staging cases: `unzip=true` passes the file with
`-zip-path` (no copy); `unzip=false, chunk=true` passes the file with
`-file-path` (no copy); otherwise the file is copied into the fresh
temporary subdirectory of the working directory and that directory is
passed with `-dir-path`. -/
theorem staging_cases (a : ArtifactConfig) (wd tn : String) :
    (a.unzip = true →
      pathForArtifact a wd tn = (["-zip-path", a.source_path], []))
    ∧ (a.unzip = false → a.chunk = true →
      pathForArtifact a wd tn = (["-file-path", a.source_path], []))
    ∧ (a.unzip = false → a.chunk = false →
      pathForArtifact a wd tn =
        (["-dir-path", wd ++ "/" ++ tn],
         [(a.source_path,
           wd ++ "/" ++ tn ++ "/" ++ basenameOf a.source_path)])) := by
  refine ⟨?_, ?_, ?_⟩
  · intro hu
    simp [pathForArtifact, hu]
  · intro hu hc
    simp [pathForArtifact, hu, hc]
  · intro hu hc
    simp [pathForArtifact, hu, hc]

/-- Witness for C5: the three staging cases at concrete rules. -/
theorem staging_cases_witness :
    pathForArtifact ⟨"a.zip", true, true, true, []⟩ "wd" "tmp0"
      = (["-zip-path", "a.zip"], [])
    ∧ pathForArtifact ⟨"b.img", false, true, false, []⟩ "wd" "tmp0"
      = (["-file-path", "b.img"], [])
    ∧ pathForArtifact ⟨"d/c.apex", false, false, false, []⟩ "wd" "tmp0"
      = (["-dir-path", "wd/tmp0"], [("d/c.apex", "wd/tmp0/c.apex")]) := by
  refine ⟨(staging_cases ⟨"a.zip", true, true, true, []⟩ "wd" "tmp0").1 rfl,
    (staging_cases ⟨"b.img", false, true, false, []⟩ "wd" "tmp0").2.1 rfl rfl,
    ?_⟩
  have h := (staging_cases ⟨"d/c.apex", false, false, false, []⟩ "wd" "tmp0").2.2
    rfl rfl
  rw [h]
  decide

/-- Rules sharing one physical file under the same display name: two
distinct non-chunked configs (they differ in `exclude_filters`). -/
def cexFailArtifactA : ArtifactConfig := ⟨"pattern-a", false, false, false, []⟩

/-- Second config for the shared-display-name scenario. -/
def cexFailArtifactB : ArtifactConfig :=
  ⟨"pattern-b", false, false, false, ["x"]⟩

/-- An oracle that fails the first config's upload and succeeds for the
second (the client subprocess may well fail one invocation and not
another). -/
def cexFailUploadFn : ArtifactConfig → Option UploadResult :=
  fun a => if a.exclude_filters = [] then none else some ⟨"dg/9", none⟩

/-- Resolver for the shared-file scenario: both patterns match the same
physical file. -/
def cexFailResolve : String → List String := fun _ => ["d/f.bin"]

/-- Claim C6, counterexample: The first rule's upload of `d/f.bin` fails
(`_upload` returns `None`), yet the failing file's display name
`f.bin` *is* a key of the final manifest, because a later rule deriving
the same display name succeeds for the same file.  A failed attempt
only guarantees that *it* adds no entry, not that the name is absent at
the end of the run. -/
theorem failed_upload_name_absent_cex :
    cexFailUploadFn { cexFailArtifactA with source_path := "d/f.bin" } = none
    ∧ { cexFailArtifactA with source_path := "d/f.bin" } ∈
      (uploadAllArtifacts cexFailUploadFn cexFailResolve
        [cexFailArtifactA, cexFailArtifactB]).uploads
    ∧ artifactName (basenameOf "d/f.bin") cexFailArtifactA.chunk
        cexFailArtifactA.unzip ∈
      keysOf (uploadAllArtifacts cexFailUploadFn cexFailResolve
        [cexFailArtifactA, cexFailArtifactB]).digests := by
  rw [uploadAllArtifacts_expand]
  decide

/-- Claim C6 (amended): `_upload` returns a failure (no result) exactly
when the client subprocess exits non-zero, times out, or exits cleanly
with an empty dumped digest.  A failing attempt adds nothing to the
digest dict (its display name is absent from the final manifest unless
a later attempt deriving the same display name succeeds), and the run
continues with the remaining files. -/
theorem upload_failure_exact (v : Nat × Nat)
    (parse : String → Option (List String))
    (oracle : ArtifactConfig → ProcOutcome) (s : RunState)
    (a : ArtifactConfig) (f : String)
    (ps : List (ArtifactConfig × String)) :
    (∀ x, uploadArtifact v (oracle x) parse = none ↔
      (oracle x = .nonZeroExit ∨ oracle x = .timeoutExpired ∨
       ∃ dd, oracle x = .success "" dd))
    ∧ ((fun x => uploadArtifact v (oracle x) parse)
          { a with source_path := f } = none →
       ¬(artifactName (basenameOf f) a.chunk a.unzip ∈ keysOf s.digests ∨
         artifactName (basenameOf f) a.chunk a.unzip ∈ s.skips) →
       processFile (fun x => uploadArtifact v (oracle x) parse) s a f =
         { s with uploads := s.uploads ++ [{ a with source_path := f }] }
       ∧ runPairs (fun x => uploadArtifact v (oracle x) parse) s ((a, f) :: ps) =
         runPairs (fun x => uploadArtifact v (oracle x) parse)
           (processFile (fun x => uploadArtifact v (oracle x) parse) s a f) ps)
    ∧ (∀ (n : String), n ∉ keysOf s.digests →
       (∀ q ∈ (a, f) :: ps,
          artifactName (basenameOf q.2) q.1.chunk q.1.unzip = n →
          uploadArtifact v (oracle { q.1 with source_path := q.2 }) parse = none) →
       n ∉ keysOf (runPairs (fun x => uploadArtifact v (oracle x) parse) s
          ((a, f) :: ps)).digests) := by
  refine ⟨?_, ?_, ?_⟩
  · intro x
    cases ho : oracle x with
    | nonZeroExit => simp [uploadArtifact]
    | timeoutExpired => simp [uploadArtifact]
    | success dd det =>
      by_cases hd : dd = ""
      · subst hd
        simp [uploadArtifact]
      · simp only [uploadArtifact]
        rw [if_neg hd]
        simp [hd]
  · intro hu hns
    exact ⟨processFile_fail _ s a f hns hu, rfl⟩
  · intro n habs hfail
    exact runPairs_name_absent _ ((a, f) :: ps) n s habs hfail

/-- Witness for C6 (amended) at the concrete failing scenario. -/
theorem upload_failure_exact_witness :
    (uploadArtifact (1, 0) (ProcOutcome.nonZeroExit) (fun _ => none) = none
      ↔ (ProcOutcome.nonZeroExit = ProcOutcome.nonZeroExit ∨
         ProcOutcome.nonZeroExit = ProcOutcome.timeoutExpired ∨
         ∃ dd, ProcOutcome.nonZeroExit = ProcOutcome.success "" dd))
    ∧ processFile
        (fun x => uploadArtifact (1, 0)
          ((fun _ => ProcOutcome.nonZeroExit) x) (fun _ => none))
        initState cexFailArtifactA "d/f.bin" =
      { initState with
          uploads := initState.uploads ++
            [{ cexFailArtifactA with source_path := "d/f.bin" }] } :=
  ⟨(upload_failure_exact (1, 0) (fun _ => none)
      (fun _ => ProcOutcome.nonZeroExit) initState cexFailArtifactA "d/f.bin"
      []).1 cexFailArtifactA,
   ((upload_failure_exact (1, 0) (fun _ => none)
      (fun _ => ProcOutcome.nonZeroExit) initState cexFailArtifactA "d/f.bin"
      []).2.1 rfl (by decide)).1⟩

/-- Claim C7: For a probed client version strictly below `(1, 0)` —
including the `(0, 0)` default produced when the version probe fails to
execute or to parse — the upload command carries no
`-dump-file-details` flag (the command equals its core part, and the
flag token occurs nowhere in it provided no configured string collides
with the literal), the returned result carries no file-detail records,
and whether the upload succeeds is independent of the version. -/
theorem version_gating (v : Nat × Nat)
    (hv : versionAtLeast v (1, 0) = false) :
    (∀ (ci : CasInfo) (a : ArtifactConfig) (pathArgs : List String)
        (ddf cdf : String), ci.client_version = v →
      uploadCmd ci a pathArgs ddf cdf = uploadCmdCore ci a pathArgs ddf)
    ∧ (∀ (ci : CasInfo) (a : ArtifactConfig) (pathArgs : List String)
        (ddf cdf : String), ci.client_version = v →
      "-dump-file-details" ∉
        ([ci.client_path, ci.cas_instance, ci.cas_service, ddf] ++ pathArgs
          ++ a.exclude_filters) →
      "-dump-file-details" ∉ uploadCmd ci a pathArgs ddf cdf)
    ∧ (∀ (o : ProcOutcome) (p : String → Option (List String)) (r : UploadResult),
        uploadArtifact v o p = some r → r.content_details = none)
    ∧ (∀ (o : ProcOutcome) (p : String → Option (List String)) (w : Nat × Nat),
        (uploadArtifact v o p).isSome = (uploadArtifact w o p).isSome)
    ∧ getClientVersion .execFailure = (0, 0)
    ∧ (∀ s : String, findVersion s.data = none →
        getClientVersion (.output s) = (0, 0))
    ∧ versionAtLeast (0, 0) (1, 0) = false := by
  refine ⟨?_, ?_, ?_, ?_, rfl, ?_, rfl⟩
  · intro ci a pathArgs ddf cdf hci
    rw [uploadCmd, hci, hv]
    simp
  · intro ci a pathArgs ddf cdf hci hclean
    rw [uploadCmd, hci, hv]
    simp only [Bool.false_eq_true, if_false, List.append_nil]
    have hc1 : "-dump-file-details" ≠ ci.client_path :=
      fun h => hclean (by simp [h])
    have hc2 : "-dump-file-details" ≠ ci.cas_instance :=
      fun h => hclean (by simp [h])
    have hc3 : "-dump-file-details" ≠ ci.cas_service :=
      fun h => hclean (by simp [h])
    have hc4 : "-dump-file-details" ≠ ddf :=
      fun h => hclean (by simp [h])
    have hp : "-dump-file-details" ∉ pathArgs :=
      fun h => hclean (by simp [h])
    have he : "-dump-file-details" ∉ a.exclude_filters :=
      fun h => hclean (by simp [h])
    intro hmem
    simp only [uploadCmdCore, List.mem_append] at hmem
    rcases hmem with ((hA | hB) | hC) | hD
    · simp only [List.mem_cons, List.not_mem_nil, or_false] at hA
      rcases hA with h | h | h | h | h | h | h | h
      · exact hc1 h
      · exact absurd h (by decide)
      · exact hc2 h
      · exact absurd h (by decide)
      · exact hc3 h
      · exact absurd h (by decide)
      · exact hc4 h
      · exact absurd h (by decide)
    · exact hp hB
    · revert hC
      split
      · decide
      · decide
    · rcases List.mem_flatMap.mp hD with ⟨e, hemem, hm⟩
      simp only [List.mem_cons, List.not_mem_nil, or_false] at hm
      rcases hm with h | h
      · exact absurd h (by decide)
      · rw [h] at he
        exact he hemem
  · intro o p r hr
    cases o with
    | nonZeroExit => exact absurd hr (by simp [uploadArtifact])
    | timeoutExpired => exact absurd hr (by simp [uploadArtifact])
    | success dd det =>
      by_cases hd : dd = ""
      · subst hd
        exact absurd hr (by simp [uploadArtifact])
      · simp only [uploadArtifact] at hr
        rw [if_neg hd] at hr
        have := (Option.some.injEq _ _).mp hr
        rw [← this]
        simp [hv]
  · intro o p w
    cases o with
    | nonZeroExit => rfl
    | timeoutExpired => rfl
    | success dd det =>
      by_cases hd : dd = ""
      · subst hd
        simp [uploadArtifact]
      · simp only [uploadArtifact]
        rw [if_neg hd, if_neg hd]
        rfl
  · intro s hs
    simp only [getClientVersion, hs]

/-- Witness for C7 at the defaulted version `(0, 0)` and a concrete
command and outcome. -/
theorem version_gating_witness :
    versionAtLeast (0, 0) (1, 0) = false
    ∧ uploadCmd ⟨"inst", "svc", "client", (0, 0)⟩ sampleImgRule
        ["-zip-path", "x-img-1.zip"] "dd" "cd" =
      uploadCmdCore ⟨"inst", "svc", "client", (0, 0)⟩ sampleImgRule
        ["-zip-path", "x-img-1.zip"] "dd"
    ∧ ∀ r, uploadArtifact (0, 0) (ProcOutcome.success "dg/1" "[]")
        (fun _ => some ["rec"]) = some r → r.content_details = none :=
  ⟨by decide,
   (version_gating (0, 0) (by decide)).1 ⟨"inst", "svc", "client", (0, 0)⟩
      sampleImgRule ["-zip-path", "x-img-1.zip"] "dd" "cd" rfl,
   fun r => (version_gating (0, 0) (by decide)).2.2.1
      (ProcOutcome.success "dg/1" "[]") (fun _ => some ["rec"]) r⟩

/-- Function `_get_env_var(key, check=True)` errs exactly on an absent or empty
value, and otherwise returns the value. -/
theorem getEnvVarCheck_cases (env : String → Option String) (k : String) :
    (envMissing env k ∧ ∃ e, getEnvVarCheck env k = .error e) ∨
    (¬envMissing env k ∧ ∃ v, env k = some v ∧ getEnvVarCheck env k = .ok v) := by
  cases h : env k with
  | none =>
    refine Or.inl ⟨Or.inl h,
      "Error: the environment variable " ++ k ++ " is not set", ?_⟩
    unfold getEnvVarCheck
    rw [h]
  | some v =>
    by_cases hv : v = ""
    · subst hv
      refine Or.inl ⟨Or.inr h,
        "Error: the environment variable " ++ k ++ " is not set", ?_⟩
      unfold getEnvVarCheck
      rw [h]
      rfl
    · refine Or.inr ⟨?_, v, rfl, ?_⟩
      · rintro (hc | hc)
        · rw [h] at hc
          exact Option.noConfusion hc
        · rw [h] at hc
          exact hv (Option.some.inj hc)
      · unfold getEnvVarCheck
        rw [h]
        dsimp only
        rw [if_neg hv]

/-- Claim C8: The run fails with a configuration error exactly when one
of the three required environment variables (`DIST_DIR`,
`RBE_instance`, `RBE_service`) is absent or empty; the error
short-circuits the monadic pipeline, so the upload loop (hence any
upload subprocess) is never reached.  When all three are present and
non-empty, environment lookup raises nothing and the run proceeds to
the upload loop. -/
theorem required_env_vars (env : String → Option String) (cp : String)
    (probe : VersionProbe)
    (uploadFn : CasInfo → ArtifactConfig → Option UploadResult)
    (resolve : String → List String) (artifacts : List ArtifactConfig) :
    ((envMissing env "DIST_DIR" ∨ envMissing env "RBE_instance" ∨
      envMissing env "RBE_service") ↔
      ∃ e, mainRun env cp probe uploadFn resolve artifacts = .error e)
    ∧ (¬(envMissing env "DIST_DIR" ∨ envMissing env "RBE_instance" ∨
         envMissing env "RBE_service") →
       ∃ ci : CasInfo, ci.client_path = cp
         ∧ ci.client_version = getClientVersion probe
         ∧ mainRun env cp probe uploadFn resolve artifacts =
           .ok (uploadAllArtifacts (uploadFn ci) resolve artifacts)) := by
  rcases getEnvVarCheck_cases env "DIST_DIR" with ⟨hD, e1, he1⟩ | ⟨hD, v1, hv1, he1⟩
  · constructor
    · constructor
      · intro _
        exact ⟨e1, by unfold mainRun; rw [he1]; rfl⟩
      · intro _
        exact Or.inl hD
    · intro hmiss
      exact absurd (Or.inl hD) hmiss
  · rcases getEnvVarCheck_cases env "RBE_instance" with ⟨hI, e2, he2⟩ | ⟨hI, v2, hv2, he2⟩
    · constructor
      · constructor
        · intro _
          exact ⟨e2, by unfold mainRun initCasInfo; rw [he1, he2]; rfl⟩
        · intro _
          exact Or.inr (Or.inl hI)
      · intro hmiss
        exact absurd (Or.inr (Or.inl hI)) hmiss
    · rcases getEnvVarCheck_cases env "RBE_service" with ⟨hS, e3, he3⟩ | ⟨hS, v3, hv3, he3⟩
      · constructor
        · constructor
          · intro _
            exact ⟨e3, by unfold mainRun initCasInfo; rw [he1, he2, he3]; rfl⟩
          · intro _
            exact Or.inr (Or.inr hS)
        · intro hmiss
          exact absurd (Or.inr (Or.inr hS)) hmiss
      · constructor
        · constructor
          · rintro (h | h | h)
            · exact absurd h hD
            · exact absurd h hI
            · exact absurd h hS
          · rintro ⟨e, he⟩
            rw [show mainRun env cp probe uploadFn resolve artifacts =
                .ok (uploadAllArtifacts
                  (uploadFn ⟨v2, v3, cp, getClientVersion probe⟩)
                  resolve artifacts) from by
              unfold mainRun initCasInfo; rw [he1, he2, he3]; rfl] at he
            exact Except.noConfusion he
        · intro _
          refine ⟨⟨v2, v3, cp, getClientVersion probe⟩, rfl, rfl, ?_⟩
          unfold mainRun initCasInfo
          rw [he1, he2, he3]
          rfl

/-- A fully-populated environment for the C8 witness. -/
def cexEnv : String → Option String :=
  fun k =>
    if k = "DIST_DIR" then some "/dist"
    else if k = "RBE_instance" then some "projects/p/instances/i"
    else if k = "RBE_service" then some "cas.example:443"
    else none

/-- Witness for C8: with all three variables set, the run reaches the
upload loop. -/
theorem required_env_vars_witness :
    ∃ ci : CasInfo, ci.client_path = "client"
      ∧ ci.client_version = getClientVersion .execFailure
      ∧ mainRun cexEnv "client" .execFailure (fun _ => cexUploadFn) cexResolve
          [sampleImgRule] =
        .ok (uploadAllArtifacts ((fun _ => cexUploadFn) ci) cexResolve
          [sampleImgRule]) :=
  (required_env_vars cexEnv "client" .execFailure (fun _ => cexUploadFn)
      cexResolve [sampleImgRule]).2 (by unfold envMissing; decide)

/-- Claim C9: The aggregation/serialization step is a pure function of
the client info and the collected `(name, digest)` pairs (running it
twice gives byte-identical output); the `files` member is rendered
from the key-sorted pair list, which is a permutation of the collected
pairs (every pair, digest string included, is preserved verbatim) and
is sorted by key; re-serializing from the sorted list is
byte-identical; and the four top-level keys are emitted in sorted
order. -/
theorem output_results_deterministic_sorted (ci : CasInfo)
    (files : List (String × String)) :
    outputDigests ci files = outputDigests ci files
    ∧ (sortPairs files).Perm files
    ∧ (sortPairs files).Pairwise (fun p q => p.1 ≤ q.1)
    ∧ outputDigests ci files = outputDigests ci (sortPairs files)
    ∧ ["cas_instance", "cas_service", "client_version",
        "files"].Pairwise (fun a b : String => a ≤ b) := by
  refine ⟨rfl, List.perm_insertionSort _ files, List.sorted_insertionSort _ files,
    ?_, by simp only [String.le_iff_toList_le]; decide⟩
  have hidem : sortPairs (sortPairs files) = sortPairs files :=
    (List.sorted_insertionSort (fun p q : String × String => p.1 ≤ q.1)
      files).insertionSort_eq
  unfold outputDigests
  rw [show sortPairs (sortPairs files) = sortPairs files from hidem]

/-- Claim C10: The display name depends only on the file's basename and
the rule's `chunk`/`unzip` flags — two files in different directories
with the same slash-free basename derive the same name under equal
flags; a file whose derived name is already a key of the digest dict is
skipped outright; any upload performed later in a run never carries a
display name already recorded at the start of that suffix (so only the
first file recorded under a name is uploaded); and the final digest
dict maps each display name to at most one digest (its keys are
duplicate-free). -/
theorem display_name_dedup (u : ArtifactConfig → Option UploadResult) :
    (∀ d1 d2 b : String, (∀ c ∈ b.data, c ≠ '/') → ∀ ch uz : Bool,
      artifactName (basenameOf (d1 ++ "/" ++ b)) ch uz =
        artifactName (basenameOf (d2 ++ "/" ++ b)) ch uz)
    ∧ (∀ (s : RunState) (a : ArtifactConfig) (f : String),
        artifactName (basenameOf f) a.chunk a.unzip ∈ keysOf s.digests →
        processFile u s a f = s)
    ∧ (∀ (ps : List (ArtifactConfig × String)) (s : RunState),
        ∀ x ∈ (runPairs u s ps).uploads, x ∈ s.uploads ∨
          artifactName (basenameOf x.source_path) x.chunk x.unzip ∉
            keysOf s.digests)
    ∧ (∀ (resolve : String → List String) (artifacts : List ArtifactConfig),
        (keysOf (uploadAllArtifacts u resolve artifacts).digests).Nodup) := by
  refine ⟨?_, ?_, ?_, ?_⟩
  · intro d1 d2 b hb ch uz
    rw [basenameOf_dir_append d1 b hb, basenameOf_dir_append d2 b hb]
  · intro s a f h
    exact processFile_skipped u s a f (Or.inl h)
  · intro ps s x hx
    exact runPairs_no_recorded_upload u ps s x hx
  · intro resolve artifacts
    rw [uploadAllArtifacts_eq_runPairs]
    exact runPairs_keys_nodup u _ initState (by simp [initState, keysOf])

/-- Witness for C10: same basename under two directories, and a
skipped already-recorded file. -/
theorem display_name_dedup_witness :
    artifactName (basenameOf ("dir1" ++ "/" ++ "f.zip")) true false =
      artifactName (basenameOf ("dir2" ++ "/" ++ "f.zip")) true false
    ∧ processFile cexUploadFn cexSkipState sampleImgRule "o/f.zip" =
      cexSkipState :=
  ⟨(display_name_dedup cexUploadFn).1 "dir1" "dir2" "f.zip" (by decide)
      true false,
   (display_name_dedup cexUploadFn).2.1 cexSkipState sampleImgRule "o/f.zip"
      (by decide)⟩

end ContentUploader
